import Mathlib

/-!
Verification of the windowed-rendering example (`src/main.rs`).

The program is a minimal winit/wgpu application: a `WgpuApp` struct holding a
surface configuration, the last known physical size, a dirty flag
(`size_changed`) and a clear color, plus an event dispatcher
(`WgpuAppHandler::window_event`) forwarding window events to it.

We embed the state-relevant parts shallowly: GPU handles (surface, device,
queue, window) carry no modelled state; their externally visible calls
(`surface.configure`, `queue.submit`, `output.present`,
`window.pre_present_notify`, `window.request_redraw`, `eprintln`,
`event_loop.exit`) are recorded as an explicit effect trace.  Color channels
are `f64` constants that the program only stores and compares, never computes
with, so we model them as rationals.  Sizes are `u32`; the program only applies
`max 1` and equality tests to them, so `Nat` is faithful.
-/

namespace MyWgpu

/-- `wgpu::Color` — four channels; the program only stores literal constants
into it, so rationals model the `f64` fields exactly. -/
structure Color where
  r : ℚ
  g : ℚ
  b : ℚ
  a : ℚ
deriving DecidableEq, Repr

/-- `winit::dpi::PhysicalSize<u32>`. -/
structure PhysicalSize where
  width : Nat
  height : Nat
deriving DecidableEq, Repr

/-- `wgpu::TextureUsages` as used here (only `RENDER_ATTACHMENT` occurs). -/
inductive TextureUsages where
  | renderAttachment
deriving DecidableEq, Repr

/-- `wgpu::PresentMode` variants relevant to the program. -/
inductive PresentMode where
  | fifo
  | mailbox
  | immediate
deriving DecidableEq, Repr

/-- `wgpu::SurfaceConfiguration` with the fields the program sets.  Texture
formats and alpha modes are opaque to the program (it only copies the first
element from the capability lists), so we model them as `Nat` codes. -/
structure SurfaceConfiguration where
  usage : TextureUsages
  format : Nat
  width : Nat
  height : Nat
  present_mode : PresentMode
  alpha_mode : Nat
  view_formats : List Nat
  desired_maximum_frame_latency : Nat
deriving DecidableEq, Repr

/-- The format/alpha-mode part of `wgpu::SurfaceCapabilities` that
`WgpuApp::new` reads. -/
structure SurfaceCapabilities where
  formats : List Nat
  alpha_modes : List Nat
deriving DecidableEq, Repr

/-- `wgpu::PowerPreference`.  The Rust enum derives `Default` with the
`None` variant as the default. -/
inductive PowerPreference where
  | none
  | lowPower
  | highPerformance
deriving DecidableEq, Repr, Inhabited

/-- `wgpu::SurfaceError` variants. -/
inductive SurfaceError where
  | timeout
  | outdated
  | lost
  | outOfMemory
  | other
deriving DecidableEq, Repr

/-- `winit::event::ElementState`. -/
inductive ElementState where
  | pressed
  | released
deriving DecidableEq, Repr

/-- `winit::event::MouseButton`. -/
inductive MouseButton where
  | left
  | right
  | middle
  | back
  | forward
  | other (code : Nat)
deriving DecidableEq, Repr

/-- `wgpu::LoadOp` for a color attachment. -/
inductive LoadOp where
  | clear (color : Color)
  | load
deriving DecidableEq, Repr

/-- `wgpu::StoreOp`. -/
inductive StoreOp where
  | store
  | discard
deriving DecidableEq, Repr

/-- One `wgpu::RenderPassColorAttachment` (no resolve target / depth slice in
this program, so only the operations matter). -/
structure ColorAttachment where
  load : LoadOp
  store : StoreOp
deriving DecidableEq, Repr

/-- One render pass: its list of color attachments. -/
structure RenderPass where
  color_attachments : List ColorAttachment
deriving DecidableEq, Repr

/-- Externally visible calls the program makes, recorded in order. -/
inductive Effect where
  | configure (cfg : SurfaceConfiguration)
  | submit (passes : List RenderPass)
  | present
  | prePresentNotify
  | requestRedraw
  | logLostSurface
  | exitLoop
deriving DecidableEq, Repr

/-- `wgpu::RequestAdapterOptions` as built in `WgpuApp::new`.
`compatible_surface` is a reference option; we record only whether it is
`Some`. -/
structure RequestAdapterOptions where
  power_preference : PowerPreference
  compatible_surface : Option Unit
  force_fallback_adapter : Bool
deriving DecidableEq, Repr

/-- The adapter-request options passed to `instance.request_adapter` in
`WgpuApp::new` (src/main.rs lines 56-67): default power preference,
`Some(&surface)`, `force_fallback_adapter: false`. -/
def adapter_options : RequestAdapterOptions :=
  { power_preference := (default : PowerPreference)
    compatible_surface := some ()
    force_fallback_adapter := false }

/-- The state of `WgpuApp` (src/main.rs lines 13-32).  The `window`,
`surface`, `device` and `queue` handles carry no modelled state. -/
structure WgpuApp where
  config : SurfaceConfiguration
  size : PhysicalSize
  size_changed : Bool
  clear_color : Color
deriving DecidableEq, Repr

/-- The clear color installed by the constructor (src/main.rs lines 118-123). -/
def initialClearColor : Color := { r := 1/10, g := 2/10, b := 3/10, a := 1 }

/-- The clear color installed by a left mouse-button press
(src/main.rs lines 198-203). -/
def leftClickColor : Color := { r := 2/10, g := 3/10, b := 4/10, a := 1 }

/-- The clear color installed by a right mouse-button press
(src/main.rs lines 208-213). -/
def rightClickColor : Color := { r := 1/10, g := 2/10, b := 3/10, a := 1 }

/-- `WgpuApp::new` (src/main.rs lines 46-135), restricted to its
state-relevant tail: from the window's reported inner size and the surface
capabilities, clamp the size to at least 1×1, build the surface configuration,
configure the surface, and return the initial state.  The Rust code indexes
`caps.formats[0]` and `caps.alpha_modes[0]` (panicking on empty lists); we use
`headD 0`, and every theorem about the result assumes the lists are
non-empty. -/
def WgpuApp.new (windowSize : PhysicalSize) (caps : SurfaceCapabilities) :
    WgpuApp × List Effect :=
  let size : PhysicalSize :=
    { width := max windowSize.width 1, height := max windowSize.height 1 }
  let config : SurfaceConfiguration :=
    { usage := TextureUsages.renderAttachment
      format := caps.formats.headD 0
      width := size.width
      height := size.height
      present_mode := PresentMode.fifo
      alpha_mode := caps.alpha_modes.headD 0
      view_formats := []
      desired_maximum_frame_latency := 2 }
  ({ config := config
     size := size
     size_changed := false
     clear_color := initialClearColor },
   [Effect.configure config])

/-- `WgpuApp::set_window_resized` (src/main.rs lines 136-142). -/
def WgpuApp.set_window_resized (app : WgpuApp) (new_size : PhysicalSize) :
    WgpuApp :=
  if new_size = app.size then app
  else { app with size := new_size, size_changed := true }

/-- `WgpuApp::resize_surface_if_needed` (src/main.rs lines 144-152). -/
def WgpuApp.resize_surface_if_needed (app : WgpuApp) : WgpuApp × List Effect :=
  if app.size_changed then
    let config :=
      { app.config with width := app.size.width, height := app.size.height }
    ({ app with config := config, size_changed := false },
     [Effect.configure config])
  else (app, [])

/-- The single render pass `render` records: one color attachment, cleared to
the given color, stored (src/main.rs lines 169-181). -/
def clearPass (c : Color) : RenderPass :=
  { color_attachments := [{ load := LoadOp.clear c, store := StoreOp.store }] }

/-- `WgpuApp::render` (src/main.rs lines 157-186).  The outcome of
`surface.get_current_texture()` is an input from the environment: either a
texture was acquired (`Except.ok`) or a `SurfaceError` occurred.  On error the
`?` operator returns it unchanged; on success the function records one render
pass with a single color attachment clearing to `clear_color`, submits the one
command buffer, presents, and returns `Ok(())`. -/
def WgpuApp.render (app : WgpuApp)
    (acquired : Except SurfaceError Unit) :
    Except SurfaceError Unit × WgpuApp × List Effect :=
  match acquired with
  | Except.error e => (Except.error e, app, [])
  | Except.ok _ =>
      (Except.ok (), app,
       [Effect.submit [clearPass app.clear_color], Effect.present])

/-- `WgpuApp::mouse_click` (src/main.rs lines 194-219).  Returns the new
state and the (vestigial) consumed flag, which is always `false`. -/
def WgpuApp.mouse_click (app : WgpuApp) (state : ElementState)
    (button : MouseButton) : WgpuApp × Bool :=
  match button with
  | MouseButton.left =>
      if state = ElementState.pressed then
        ({ app with clear_color := leftClickColor }, false)
      else (app, false)
  | MouseButton.right =>
      if state = ElementState.pressed then
        ({ app with clear_color := rightClickColor }, false)
      else (app, false)
  | _ => (app, false)

/-- The `winit::event::WindowEvent`s the dispatcher distinguishes
(src/main.rs lines 283-317).  A redraw request carries the environment's
outcome for the texture acquisition inside the triggered `render` call. -/
inductive WindowEvent where
  | closeRequested
  | resized (size : PhysicalSize)
  | keyboardInput
  | mouseInput (state : ElementState) (button : MouseButton)
  | redrawRequested (acquired : Except SurfaceError Unit)
  | otherEvent

/-- `WgpuAppHandler::window_event` (src/main.rs lines 269-318): with no
manager in the slot every event is dropped; otherwise the event is forwarded.
Zero-dimension resizes are filtered out before `set_window_resized`.  On a
redraw request the window is notified (`pre_present_notify`), `render` runs,
a `SurfaceError::Lost` result is logged, other errors are ignored, and one
redraw is requested in every outcome. -/
def window_event (slot : Option WgpuApp) (event : WindowEvent) :
    Option WgpuApp × List Effect :=
  match slot with
  | none => (none, [])
  | some app =>
    match event with
    | WindowEvent.closeRequested => (some app, [Effect.exitLoop])
    | WindowEvent.resized physical_size =>
        if physical_size.width = 0 ∨ physical_size.height = 0 then
          (some app, [])
        else
          (some (app.set_window_resized physical_size), [])
    | WindowEvent.keyboardInput => (some app, [])
    | WindowEvent.mouseInput state button =>
        (some (app.mouse_click state button).1, [])
    | WindowEvent.redrawRequested acquired =>
        let r := app.render acquired
        let log : List Effect :=
          match r.1 with
          | Except.ok _ => []
          | Except.error SurfaceError.lost => [Effect.logLostSurface]
          | Except.error _ => []
        (some r.2.1,
         Effect.prePresentNotify :: (r.2.2 ++ log ++ [Effect.requestRedraw]))
    | WindowEvent.otherEvent => (some app, [])

/-- Run a sequence of window events through the dispatcher, collecting the
effect trace. -/
def runEvents (slot : Option WgpuApp) : List WindowEvent →
    Option WgpuApp × List Effect
  | [] => (slot, [])
  | e :: es =>
      let step := window_event slot e
      let rest := runEvents step.1 es
      (rest.1, step.2 ++ rest.2)

/-- Whether an effect is a surface reconfiguration. -/
def Effect.isConfigure : Effect → Bool
  | Effect.configure _ => true
  | _ => false

/-- Whether an effect is a redraw request. -/
def Effect.isRequestRedraw : Effect → Bool
  | Effect.requestRedraw => true
  | _ => false

/-- The size invariant: stored size and configured size are both at least
1×1. -/
def sizeInv (app : WgpuApp) : Prop :=
  1 ≤ app.size.width ∧ 1 ≤ app.size.height ∧
  1 ≤ app.config.width ∧ 1 ≤ app.config.height

/-- Lift a state predicate to the dispatcher's optional slot. -/
def slotInv (P : WgpuApp → Prop) : Option WgpuApp → Prop
  | none => True
  | some app => P app

/-- An event is a left mouse-button press. -/
def isLeftPress : WindowEvent → Bool
  | WindowEvent.mouseInput ElementState.pressed MouseButton.left => true
  | _ => false

/-- Every `submit` effect in the trace submits exactly the single pass that
clears to `c`. -/
def submitsClearTo (c : Color) (effs : List Effect) : Prop :=
  ∀ eff ∈ effs, ∀ ps, eff = Effect.submit ps → ps = [clearPass c]

/-- A concrete manager state used to instantiate theorems: the state produced
by `WgpuApp::new` for an 800×600 window whose surface supports format code 5
and alpha-mode code 7. -/
def sampleApp : WgpuApp := (WgpuApp.new ⟨800, 600⟩ ⟨[5], [7]⟩).1

/-- `render` never modifies the manager state, on success or on any error. -/
theorem render_state_eq (app : WgpuApp) (acq : Except SurfaceError Unit) :
    (app.render acq).2.1 = app := by
  cases acq <;> rfl

/-- `set_window_resized` never touches the configuration or the clear color,
and afterwards the stored size is the requested one. -/
theorem set_window_resized_fields (app : WgpuApp) (s : PhysicalSize) :
    (app.set_window_resized s).config = app.config ∧
    (app.set_window_resized s).clear_color = app.clear_color ∧
    (app.set_window_resized s).size = s := by
  unfold WgpuApp.set_window_resized
  by_cases h : s = app.size <;> simp [h]

/-- The state built by `WgpuApp::new` satisfies the size invariant. -/
theorem new_sizeInv (ws : PhysicalSize) (caps : SurfaceCapabilities) :
    sizeInv (WgpuApp.new ws caps).1 := by
  refine ⟨?_, ?_, ?_, ?_⟩ <;> simp [WgpuApp.new]

/-- One dispatcher step preserves the size invariant. -/
theorem sizeInv_step (slot : Option WgpuApp) (e : WindowEvent)
    (h : slotInv sizeInv slot) : slotInv sizeInv (window_event slot e).1 := by
  cases slot with
  | none => simpa [window_event] using h
  | some app =>
    cases e with
    | closeRequested => simpa [window_event] using h
    | resized s =>
        by_cases hz : s.width = 0 ∨ s.height = 0
        · simpa [window_event, hz] using h
        · push_neg at hz
          have hs := set_window_resized_fields app s
          simp only [window_event, hz.1, hz.2, or_self, if_false, slotInv] at h ⊢
          refine ⟨?_, ?_, ?_, ?_⟩
          · rw [hs.2.2]; exact Nat.one_le_iff_ne_zero.mpr hz.1
          · rw [hs.2.2]; exact Nat.one_le_iff_ne_zero.mpr hz.2
          · rw [hs.1]; exact h.2.2.1
          · rw [hs.1]; exact h.2.2.2
    | keyboardInput => simpa [window_event] using h
    | mouseInput st b =>
        simp only [window_event, slotInv] at h ⊢
        cases b <;> cases st <;>
          simp [WgpuApp.mouse_click, sizeInv] at h ⊢ <;> exact h
    | redrawRequested acq =>
        simp only [window_event, slotInv] at h ⊢
        rw [render_state_eq]; exact h
    | otherEvent => simpa [window_event] using h

/-- Running any event sequence preserves the size invariant. -/
theorem sizeInv_runEvents (events : List WindowEvent) :
    ∀ slot : Option WgpuApp, slotInv sizeInv slot →
      slotInv sizeInv (runEvents slot events).1 := by
  induction events with
  | nil => intro slot h; simpa [runEvents] using h
  | cons e es ih =>
      intro slot h
      simpa [runEvents] using ih _ (sizeInv_step slot e h)

/-- C1: for every window size (w,h) with w≥1, h≥1 that differs from the
stored size, `set_window_resized (w,h)` followed by
`resize_surface_if_needed` leaves the configuration with width = w and
height = h exactly, and `size_changed` false. -/
theorem notify_then_apply_sets_config (app : WgpuApp) (w h : Nat)
    (hw : 1 ≤ w) (hh : 1 ≤ h)
    (hne : (⟨w, h⟩ : PhysicalSize) ≠ app.size) :
    ((app.set_window_resized ⟨w, h⟩).resize_surface_if_needed).1.config.width
        = w ∧
    ((app.set_window_resized ⟨w, h⟩).resize_surface_if_needed).1.config.height
        = h ∧
    ((app.set_window_resized ⟨w, h⟩).resize_surface_if_needed).1.size_changed
        = false := by
  simp [WgpuApp.set_window_resized, hne, WgpuApp.resize_surface_if_needed]

/-- Witness for C1 at a concrete state and size. -/
theorem notify_then_apply_sets_config_witness :
    ((sampleApp.set_window_resized ⟨1024, 768⟩).resize_surface_if_needed).1.config.width
        = 1024 ∧
    ((sampleApp.set_window_resized ⟨1024, 768⟩).resize_surface_if_needed).1.config.height
        = 768 ∧
    ((sampleApp.set_window_resized ⟨1024, 768⟩).resize_surface_if_needed).1.size_changed
        = false :=
  notify_then_apply_sets_config sampleApp 1024 768 (by decide) (by decide)
    (by decide)

/-- C2: `render` propagates a surface-acquisition error unchanged (with no
commands submitted and no present), and on successful acquisition returns
`Ok(())` after submitting exactly one render pass whose single color
attachment clears to the manager's current `clear_color`, then presenting. -/
theorem render_result_characterization (app : WgpuApp) (e : SurfaceError) :
    app.render (Except.error e) = (Except.error e, app, []) ∧
    app.render (Except.ok ()) =
      (Except.ok (), app,
       [Effect.submit [clearPass app.clear_color], Effect.present]) :=
  ⟨rfl, rfl⟩

/-- C3: a left press sets `clear_color` to (0.2, 0.3, 0.4, 1.0); a right
press sets it to (0.1, 0.2, 0.3, 1.0); releases of either button, and any
event on any other button, leave the whole state unchanged. -/
theorem mouse_click_characterization (app : WgpuApp) (st : ElementState)
    (c : Nat) :
    app.mouse_click ElementState.pressed MouseButton.left =
      ({ app with clear_color := leftClickColor }, false) ∧
    app.mouse_click ElementState.pressed MouseButton.right =
      ({ app with clear_color := rightClickColor }, false) ∧
    app.mouse_click ElementState.released MouseButton.left = (app, false) ∧
    app.mouse_click ElementState.released MouseButton.right = (app, false) ∧
    app.mouse_click st MouseButton.middle = (app, false) ∧
    app.mouse_click st MouseButton.back = (app, false) ∧
    app.mouse_click st MouseButton.forward = (app, false) ∧
    app.mouse_click st (MouseButton.other c) = (app, false) := by
  refine ⟨?_, ?_, ?_, ?_, rfl, rfl, rfl, rfl⟩ <;> simp [WgpuApp.mouse_click]

/-- C4 counterexample: the adapter request options in `WgpuApp::new` use the
default power preference, which is `None`, not `HighPerformance` — the claim
that the request prefers high performance is false. -/
theorem adapter_power_preference_counterexample :
    adapter_options.power_preference = PowerPreference.none ∧
    PowerPreference.none ≠ PowerPreference.highPerformance := by
  exact ⟨rfl, by decide⟩

/-- C4 (amended): the adapter request asks for an adapter compatible with the
created surface, with the default power preference (`PowerPreference::None`,
neither high performance nor low power), and `force_fallback_adapter`
false. -/
theorem adapter_options_characterization :
    adapter_options.power_preference = (default : PowerPreference) ∧
    (default : PowerPreference) = PowerPreference.none ∧
    adapter_options.compatible_surface = some () ∧
    adapter_options.force_fallback_adapter = false :=
  ⟨rfl, rfl, rfl, rfl⟩

/-- C5: every state reachable through the dispatcher from the constructor's
state keeps stored and configured width/height at least 1, and a resize event
with a zero dimension is dropped (state unchanged, no effects) before
`set_window_resized` could run. -/
theorem reachable_sizes_positive (ws : PhysicalSize)
    (caps : SurfaceCapabilities) (events : List WindowEvent) (app : WgpuApp)
    (w h : Nat) :
    slotInv sizeInv (runEvents (some (WgpuApp.new ws caps).1) events).1 ∧
    window_event (some app) (WindowEvent.resized ⟨0, h⟩) = (some app, []) ∧
    window_event (some app) (WindowEvent.resized ⟨w, 0⟩) = (some app, []) := by
  refine ⟨sizeInv_runEvents events _ (new_sizeInv ws caps), ?_, ?_⟩ <;>
    simp [window_event]

/-- C6: on a redraw request the dispatcher emits, in order, the
pre-present notification, then (on success) the submit and present of the
clearing pass, then (only on `SurfaceError::Lost`) the log message, and in
every outcome exactly one redraw request. -/
theorem redraw_dispatch_characterization (app : WgpuApp) (e : SurfaceError) :
    window_event (some app) (WindowEvent.redrawRequested (Except.ok ())) =
      (some app,
       [Effect.prePresentNotify, Effect.submit [clearPass app.clear_color],
        Effect.present, Effect.requestRedraw]) ∧
    window_event (some app)
        (WindowEvent.redrawRequested (Except.error SurfaceError.lost)) =
      (some app,
       [Effect.prePresentNotify, Effect.logLostSurface,
        Effect.requestRedraw]) ∧
    (e ≠ SurfaceError.lost →
      window_event (some app) (WindowEvent.redrawRequested (Except.error e)) =
        (some app, [Effect.prePresentNotify, Effect.requestRedraw])) ∧
    (∀ acq, ((window_event (some app)
          (WindowEvent.redrawRequested acq)).2.countP Effect.isRequestRedraw)
        = 1) := by
  refine ⟨rfl, rfl, ?_, ?_⟩
  · intro h
    cases e <;> first | rfl | exact absurd rfl h
  · intro acq
    cases acq with
    | ok u => rfl
    | error e' => cases e' <;> rfl

/-- Witness for C6 at a concrete state and a non-lost error. -/
theorem redraw_dispatch_witness :
    window_event (some sampleApp)
        (WindowEvent.redrawRequested (Except.error SurfaceError.outdated)) =
      (some sampleApp, [Effect.prePresentNotify, Effect.requestRedraw]) :=
  (redraw_dispatch_characterization sampleApp SurfaceError.outdated).2.2.1
    (by decide)

/-- C7: whenever the capability lists are non-empty (the Rust code panics
otherwise), the configuration built by `WgpuApp::new` uses their first
elements, the window size clamped to at least 1×1, render-attachment usage,
FIFO present mode, no extra view formats, and a desired maximum frame
latency of 2 — and the constructor's one effect is configuring the surface
with exactly that configuration before returning. -/
theorem new_config_characterization (ws : PhysicalSize)
    (caps : SurfaceCapabilities) (f a : Nat) (fs as : List Nat)
    (hf : caps.formats = f :: fs) (ha : caps.alpha_modes = a :: as) :
    (WgpuApp.new ws caps).1.config =
      { usage := TextureUsages.renderAttachment
        format := f
        width := max ws.width 1
        height := max ws.height 1
        present_mode := PresentMode.fifo
        alpha_mode := a
        view_formats := []
        desired_maximum_frame_latency := 2 } ∧
    (WgpuApp.new ws caps).2 =
      [Effect.configure (WgpuApp.new ws caps).1.config] := by
  constructor
  · simp [WgpuApp.new, hf, ha]
  · rfl

/-- Witness for C7 at a concrete window size (with a zero width, exercising
the clamp) and concrete capability lists. -/
theorem new_config_witness :
    (WgpuApp.new ⟨0, 600⟩ ⟨[5], [7]⟩).1.config =
      { usage := TextureUsages.renderAttachment
        format := 5
        width := max 0 1
        height := max 600 1
        present_mode := PresentMode.fifo
        alpha_mode := 7
        view_formats := []
        desired_maximum_frame_latency := 2 } ∧
    (WgpuApp.new ⟨0, 600⟩ ⟨[5], [7]⟩).2 =
      [Effect.configure (WgpuApp.new ⟨0, 600⟩ ⟨[5], [7]⟩).1.config] :=
  new_config_characterization ⟨0, 600⟩ ⟨[5], [7]⟩ 5 7 [] [] rfl rfl

/-- C8: a second `set_window_resized` with the same size is a no-op on the
state, and after such a repeated notification for a genuinely new size,
`resize_surface_if_needed` emits exactly one configure effect. -/
theorem notify_idempotent (app : WgpuApp) (s : PhysicalSize) :
    (app.set_window_resized s).set_window_resized s =
      app.set_window_resized s ∧
    (s ≠ app.size →
      (((app.set_window_resized s).set_window_resized
          s).resize_surface_if_needed).2.countP Effect.isConfigure = 1) := by
  constructor
  · by_cases hs : s = app.size <;>
      simp [WgpuApp.set_window_resized, hs]
  · intro hne
    simp [WgpuApp.set_window_resized, hne, WgpuApp.resize_surface_if_needed,
      Effect.isConfigure]

/-- Witness for C8 at a concrete state and a size differing from the stored
one. -/
theorem notify_idempotent_witness :
    (sampleApp.set_window_resized ⟨1024, 768⟩).set_window_resized ⟨1024, 768⟩
        = sampleApp.set_window_resized ⟨1024, 768⟩ ∧
    (((sampleApp.set_window_resized ⟨1024, 768⟩).set_window_resized
        ⟨1024, 768⟩).resize_surface_if_needed).2.countP Effect.isConfigure
        = 1 :=
  ⟨(notify_idempotent sampleApp ⟨1024, 768⟩).1,
   (notify_idempotent sampleApp ⟨1024, 768⟩).2 (by decide)⟩

/-- C9: `render` leaves every manager field unchanged whether it succeeds or
fails, and the dispatcher's redraw path neither changes the state nor ever
reconfigures the surface (it never calls `resize_surface_if_needed`). -/
theorem render_frame_effect (app : WgpuApp) (acq : Except SurfaceError Unit) :
    (app.render acq).2.1 = app ∧
    (window_event (some app) (WindowEvent.redrawRequested acq)).1 = some app ∧
    ((window_event (some app) (WindowEvent.redrawRequested acq)).2.countP
        Effect.isConfigure) = 0 := by
  refine ⟨render_state_eq app acq, ?_, ?_⟩ <;>
    (cases acq with
     | ok u => rfl
     | error e => cases e <;> rfl)

/-- One dispatcher step on a non-left-press event preserves
`clear_color = rightClickColor` and submits only passes clearing to it. -/
theorem clearColor_step (app : WgpuApp) (e : WindowEvent)
    (hc : app.clear_color = rightClickColor) (he : isLeftPress e = false) :
    slotInv (fun a => a.clear_color = rightClickColor)
      (window_event (some app) e).1 ∧
    submitsClearTo rightClickColor (window_event (some app) e).2 := by
  cases e with
  | closeRequested =>
      exact ⟨hc, by simp [window_event, submitsClearTo]⟩
  | resized s =>
      by_cases hz : s.width = 0 ∨ s.height = 0
      · exact ⟨by simpa [window_event, hz, slotInv] using hc,
          by simp [window_event, hz, submitsClearTo]⟩
      · refine ⟨?_, by simp [window_event, hz, submitsClearTo]⟩
        have hf := (set_window_resized_fields app s).2.1
        simpa [window_event, hz, slotInv, hf] using hc
  | keyboardInput =>
      exact ⟨hc, by simp [window_event, submitsClearTo]⟩
  | mouseInput st b =>
      refine ⟨?_, by cases st <;> cases b <;>
        simp [window_event, submitsClearTo, WgpuApp.mouse_click]⟩
      cases st <;> cases b <;>
        simp_all [window_event, slotInv, WgpuApp.mouse_click, isLeftPress]
  | redrawRequested acq =>
      refine ⟨by simpa [window_event, slotInv, render_state_eq] using hc, ?_⟩
      cases acq with
      | ok u =>
          simp [window_event, WgpuApp.render, submitsClearTo, hc]
      | error e' =>
          cases e' <;> simp [window_event, WgpuApp.render, submitsClearTo]
  | otherEvent =>
      exact ⟨hc, by simp [window_event, submitsClearTo]⟩

/-- Running a sequence of events with no left mouse-button press preserves
`clear_color = rightClickColor` and submits only passes clearing to it. -/
theorem clearColor_runEvents (events : List WindowEvent) :
    ∀ slot : Option WgpuApp,
      slotInv (fun a => a.clear_color = rightClickColor) slot →
      (∀ e ∈ events, isLeftPress e = false) →
      slotInv (fun a => a.clear_color = rightClickColor)
        (runEvents slot events).1 ∧
      submitsClearTo rightClickColor (runEvents slot events).2 := by
  induction events with
  | nil =>
      intro slot h _
      exact ⟨by simpa [runEvents] using h, by simp [runEvents, submitsClearTo]⟩
  | cons e es ih =>
      intro slot h hall
      have he : isLeftPress e = false := hall e (List.mem_cons_self e es)
      have hes : ∀ x ∈ es, isLeftPress x = false :=
        fun x hx => hall x (List.mem_cons_of_mem e hx)
      cases slot with
      | none =>
          have hrest := ih none trivial hes
          constructor
          · simpa [runEvents, window_event] using hrest.1
          · simpa [runEvents, window_event, submitsClearTo] using hrest.2
      | some app =>
          have hstep := clearColor_step app e h he
          have hrest := ih (window_event (some app) e).1 hstep.1 hes
          constructor
          · simpa [runEvents] using hrest.1
          · intro eff hmem ps hps
            simp only [runEvents, List.mem_append] at hmem
            rcases hmem with hmem | hmem
            · exact hstep.2 eff hmem ps hps
            · exact hrest.2 eff hmem ps hps

/-- C10: the constructor's clear color equals the right-press color
(0.1, 0.2, 0.3, 1.0); along any event sequence with no left press the
manager's clear color stays that color and every submitted pass clears to
it; and a right press on a manager already holding that color is the
identity on the state. -/
theorem initial_color_equals_right_press (ws : PhysicalSize)
    (caps : SurfaceCapabilities) (events : List WindowEvent)
    (h : ∀ e ∈ events, isLeftPress e = false) :
    initialClearColor = rightClickColor ∧
    slotInv (fun a => a.clear_color = rightClickColor)
      (runEvents (some (WgpuApp.new ws caps).1) events).1 ∧
    submitsClearTo rightClickColor
      (runEvents (some (WgpuApp.new ws caps).1) events).2 ∧
    (∀ app : WgpuApp, app.clear_color = rightClickColor →
      app.mouse_click ElementState.pressed MouseButton.right = (app, false)) := by
  have hinit : slotInv (fun a => a.clear_color = rightClickColor)
      (some (WgpuApp.new ws caps).1) := rfl
  obtain ⟨h1, h2⟩ :=
    clearColor_runEvents events (some (WgpuApp.new ws caps).1) hinit h
  refine ⟨rfl, h1, h2, ?_⟩
  intro app hca
  cases app with
  | mk config size sc cc =>
      simp only [WgpuApp.clear_color] at hca
      simp [WgpuApp.mouse_click, hca]

/-- Witness for C10 on a concrete event sequence containing a right press, a
successful redraw and a resize, but no left press. -/
theorem initial_color_equals_right_press_witness :
    initialClearColor = rightClickColor ∧
    slotInv (fun a => a.clear_color = rightClickColor)
      (runEvents (some (WgpuApp.new ⟨800, 600⟩ ⟨[5], [7]⟩).1)
        [WindowEvent.mouseInput ElementState.pressed MouseButton.right,
         WindowEvent.redrawRequested (Except.ok ()),
         WindowEvent.resized ⟨640, 480⟩]).1 ∧
    submitsClearTo rightClickColor
      (runEvents (some (WgpuApp.new ⟨800, 600⟩ ⟨[5], [7]⟩).1)
        [WindowEvent.mouseInput ElementState.pressed MouseButton.right,
         WindowEvent.redrawRequested (Except.ok ()),
         WindowEvent.resized ⟨640, 480⟩]).2 ∧
    (∀ app : WgpuApp, app.clear_color = rightClickColor →
      app.mouse_click ElementState.pressed MouseButton.right = (app, false)) :=
  initial_color_equals_right_press ⟨800, 600⟩ ⟨[5], [7]⟩
    [WindowEvent.mouseInput ElementState.pressed MouseButton.right,
     WindowEvent.redrawRequested (Except.ok ()),
     WindowEvent.resized ⟨640, 480⟩]
    (by intro e he; fin_cases he <;> rfl)

end MyWgpu
